import Mathlib

/-!
Shallow embedding of the Sentinel-1 scene retrieval pipeline from
src/sentinel1_agnet.py (function download_sentinel1_grd and its nested
helpers get_time_diff and s3_to_http), together with proofs of the
specification's claims about it.

Modelling conventions:
* Python strings are lists of characters (Str).
* Seconds and degrees are rationals; datetime.datetime values become
  PyDatetime (naive clock reading in seconds plus an optional UTC offset,
  none meaning a naive datetime).
* ISO-8601 timestamp strings from the catalog are abstracted to Iso8601:
  the clock reading plus their timezone designator (absent, trailing Z,
  or an explicit numeric offset).
* Raised exceptions become Except PyErr: aware-minus-naive subtraction
  raises TypeError, the failing unpack of str.split in s3_to_http raises
  ValueError, and indexing an empty list raises IndexError.
* The network is an oracle: the catalog is a function from the search
  query to the returned item list, and HTTP GET is a function from a URL
  to a response status.
* Python's list.sort is a stable sort; it is modelled by List.mergeSort,
  which is stable, after computing each element's key (CPython computes
  all keys first, propagating the first exception, which compute_keys
  mirrors).
-/

namespace Sentinel1

/-- A Python string, modelled as its list of characters. -/
abbrev Str : Type := List Char

deriving instance DecidableEq for Except

/-- The Python exceptions the embedded code can raise. -/
inductive PyErr where
  | typeError
  | valueError
  | indexError
deriving DecidableEq

/-- Timezone designator of an ISO-8601 timestamp string: absent (naive),
a trailing Z, or an explicit numeric offset in seconds. -/
inductive TzSuffix where
  | noTz
  | zulu
  | offset (secs : ℚ)
deriving DecidableEq

/-- An ISO-8601 timestamp string, abstracted to the clock reading it
denotes (seconds, as read off the digits) and its timezone designator. -/
structure Iso8601 where
  base : ℚ
  tz : TzSuffix
deriving DecidableEq

/-- A datetime.datetime value: naive clock reading in seconds plus an
optional UTC offset in seconds (none models a naive datetime). -/
structure PyDatetime where
  base : ℚ
  tzOffset : Option ℚ
deriving DecidableEq

/-- Models item_datetime_str.replace("Z", "+00:00") at line 93 of the
source: a trailing Z designator becomes the numeric offset +00:00. -/
def pyReplaceZ (s : Iso8601) : Iso8601 :=
  match s.tz with
  | .zulu => { s with tz := .offset 0 }
  | _ => s

/-- Models datetime.fromisoformat: a string without designator parses to
a naive datetime, an explicit offset to an aware one.  (The zulu branch
is unreachable after pyReplaceZ.) -/
def fromisoformat (s : Iso8601) : PyDatetime :=
  match s.tz with
  | .noTz => { base := s.base, tzOffset := none }
  | .zulu => { base := s.base, tzOffset := some 0 }
  | .offset q => { base := s.base, tzOffset := some q }

/-- Python datetime subtraction, in seconds.  Subtracting a naive from an
aware datetime (or vice versa) raises TypeError; aware datetimes are
compared on their UTC instants. -/
def py_sub (a b : PyDatetime) : Except PyErr ℚ :=
  match a.tzOffset, b.tzOffset with
  | none, none => .ok (a.base - b.base)
  | some oa, some ob => .ok ((a.base - oa) - (b.base - ob))
  | _, _ => .error .typeError

/-- A STAC asset: its href source location string. -/
structure Asset where
  href : Str
deriving DecidableEq

/-- A catalog item: identifier, the properties["datetime"] string (may be
absent), and the assets dictionary keyed by polarization name. -/
structure Item where
  id : Str
  datetime : Option Iso8601
  assets : List (Str × Asset)
deriving DecidableEq

/-- An HTTP response; only the status code matters to the pipeline. -/
structure HttpResp where
  status : ℕ
deriving DecidableEq

/-- The HTTP layer as an oracle from URL to response. -/
abbrev Http := Str → HttpResp

/-- Python dict.get for the assets dictionary (keys are unique, so the
first matching binding is the binding). -/
def dict_get {β : Type} (d : List (Str × β)) (k : Str) : Option β :=
  (d.find? (fun p => decide (p.1 = k))).map (fun p => p.2)

/-- Lines 50-52: datetime.strptime(date_str, "%Y-%m-%d").replace(tzinfo=
timezone.utc).  The date is abstracted to its day index dateDay; the
result is the aware midnight of that day. -/
def center_date (dateDay : ℤ) : PyDatetime :=
  { base := 86400 * (dateDay : ℚ), tzOffset := some 0 }

/-- The day index a datetime's clock reading falls in, as used by
strftime's date fields. -/
def strftime_day (dt : PyDatetime) : ℤ :=
  ⌊dt.base / 86400⌋

/-- Subtraction of timedelta(days=m). -/
def sub_days (dt : PyDatetime) (m : ℤ) : PyDatetime :=
  { dt with base := dt.base - 86400 * (m : ℚ) }

/-- Addition of timedelta(days=m). -/
def add_days (dt : PyDatetime) (m : ℤ) : PyDatetime :=
  { dt with base := dt.base + 86400 * (m : ℚ) }

/-- Lines 55-57: (center_date - timedelta(days=days_margin)).strftime(
"%Y-%m-%dT00:00:00Z"), encoded as a (day index, second-of-day) pair; the
format string hard-codes second-of-day 0 (00:00:00). -/
def start_date (dateDay days_margin : ℤ) : ℤ × ℕ :=
  (strftime_day (sub_days (center_date dateDay) days_margin), 0)

/-- Lines 58-60: (center_date + timedelta(days=days_margin)).strftime(
"%Y-%m-%dT23:59:59Z"); the format string hard-codes second-of-day 86399
(23:59:59). -/
def end_date (dateDay days_margin : ℤ) : ℤ × ℕ :=
  (strftime_day (add_days (center_date dateDay) days_margin), 86399)

/-- Line 67: delta = 0.2. -/
def delta : ℚ := 0.2

/-- Line 68: bbox = [lon - delta, lat - delta, lon + delta, lat + delta]. -/
def bbox (lon lat : ℚ) : List ℚ :=
  [lon - delta, lat - delta, lon + delta, lat + delta]

/-- The search request sent to the catalog (lines 71-76). -/
structure SearchQuery where
  collections : List Str
  bbox : List ℚ
  timeInterval : (ℤ × ℕ) × (ℤ × ℕ)
  limit : ℕ

/-- The query built by download_sentinel1_grd: collection sentinel-1-grd,
the computed bbox and temporal interval, limit 50. -/
def search_query (lon lat : ℚ) (dateDay days_margin : ℤ) : SearchQuery :=
  { collections := ["sentinel-1-grd".toList]
  , bbox := bbox lon lat
  , timeInterval := (start_date dateDay days_margin, end_date dateDay days_margin)
  , limit := 50 }

/-- Lines 87-95: the sort key.  A missing datetime property gives
float("inf"), modelled as the top element; otherwise the timestamp is
parsed (after replacing Z by +00:00) and subtracted from the aware
center_date, which raises TypeError if the parsed datetime is naive. -/
def get_time_diff (center : PyDatetime) (item : Item) : Except PyErr (WithTop ℚ) :=
  match item.datetime with
  | none => .ok ⊤
  | some s =>
      (py_sub (fromisoformat (pyReplaceZ s)) center).map
        (fun d => ((|d| : ℚ) : WithTop ℚ))

/-- The time difference of an item when its key computation succeeds
(used only to state properties; missing instants map to the top
element). -/
def time_diff_val (center : PyDatetime) (item : Item) : WithTop ℚ :=
  match get_time_diff center item with
  | .ok k => k
  | .error _ => ⊤

/-- CPython's list.sort(key=f) first computes every element's key, left
to right, propagating the first exception. -/
def compute_keys (center : PyDatetime) : List Item → Except PyErr (List (WithTop ℚ × Item))
  | [] => .ok []
  | it :: rest =>
      (get_time_diff center it).bind (fun k =>
        (compute_keys center rest).map (fun ks => (k, it) :: ks))

/-- Comparison of decorated items on their keys. -/
def diffLE (a b : WithTop ℚ × Item) : Bool :=
  decide (a.1 ≤ b.1)

/-- Line 97: items.sort(key=get_time_diff).  Python's sort is stable,
modelled by the stable List.mergeSort on the key-decorated list. -/
def sort_items (center : PyDatetime) (items : List Item) : Except PyErr (List Item) :=
  (compute_keys center items).map
    (fun keyed => (keyed.mergeSort diffLE).map (fun p => p.2))

/-- Line 98: item = items[0] after sorting; head? so that the (guarded)
empty case is visible to the caller. -/
def select_nearest (center : PyDatetime) (items : List Item) : Except PyErr (Option Item) :=
  (sort_items center items).map List.head?

/-- Python's no_scheme.split("/", 1) viewed through the unpack at line
113: none when the separator is absent (the unpack then raises),
otherwise the segment before the first separator and the whole
remainder. -/
def split_once (sep : Char) (s : Str) : Option (Str × Str) :=
  match s.dropWhile (fun c => decide (c ≠ sep)) with
  | [] => none
  | _ :: rest => some (s.takeWhile (fun c => decide (c ≠ sep)), rest)

/-- Lines 109-116: s3_to_http.  An s3:// href is rewritten to
https://{bucket}.s3.amazonaws.com/{key}; the unpack of split("/", 1)
raises ValueError when no separator follows the scheme; any other href
is returned unchanged. -/
def s3_to_http (href : Str) : Except PyErr Str :=
  if ("s3://".toList).isPrefixOf href then
    match split_once '/' (href.drop 5) with
    | none => .error .valueError
    | some (bucket, key) =>
        .ok ("https://".toList ++ bucket ++ ".s3.amazonaws.com/".toList ++ key)
  else
    .ok href

/-- Per-channel outcome recorded in downloaded_paths: a saved file path,
the download-failed message carrying the status code, or the
channel-absent message. -/
inductive DownloadOutcome where
  | saved (path : Str)
  | failed (status : ℕ)
  | absent
deriving DecidableEq

/-- One polarization channel's download (lines 120-139 for vv, 141-160
for vh): absent asset gives the absent marker; otherwise normalize the
href (ValueError propagates), GET it, and on status 200 write
{save_dir}/{id}_{chan}.tif, else record the failure with the status.
The second component lists the file paths written. -/
def process_channel (http : Http) (save_dir : Str) (scene_id chan : Str)
    (asset : Option Asset) : Except PyErr (DownloadOutcome × List Str) :=
  match asset with
  | none => .ok (.absent, [])
  | some a =>
      (s3_to_http a.href).map (fun url =>
        let filename := save_dir ++ ('/' :: scene_id) ++ ('_' :: chan) ++ ".tif".toList
        if (http url).status = 200 then (.saved filename, [filename])
        else (.failed (http url).status, []))

/-- The returned result message (lines 80-84 and 162-169): either the
no-scenes message carrying the margin, date and coordinates, or the
summary of both channel outcomes plus the selected scene's acquisition
time. -/
inductive ResultMsg where
  | noScenes (days_margin dateDay : ℤ) (lon lat : ℚ)
  | done (vv vh : DownloadOutcome) (selected_time : Option Iso8601)
deriving DecidableEq

/-- Lines 22-169: download_sentinel1_grd.  Builds the search window,
queries the catalog, returns the no-scenes message on an empty result,
otherwise selects the nearest scene and processes the vv then the vh
channel, returning both outcomes, the acquisition time, and the list of
files written. -/
def download_sentinel1_grd (http : Http) (catalog : SearchQuery → List Item)
    (lon lat : ℚ) (dateDay : ℤ) (save_dir : Str) (days_margin : ℤ) :
    Except PyErr (ResultMsg × List Str) :=
  let center := center_date dateDay
  let items := catalog (search_query lon lat dateDay days_margin)
  if items = [] then
    .ok (.noScenes days_margin dateDay lon lat, [])
  else
    (select_nearest center items).bind (fun sel =>
      match sel with
      | none => .error .indexError
      | some item =>
          (process_channel http save_dir item.id ("vv".toList)
              (dict_get item.assets ("vv".toList))).bind (fun vv =>
            (process_channel http save_dir item.id ("vh".toList)
                (dict_get item.assets ("vh".toList))).map (fun vh =>
              (.done vv.1 vh.1 item.datetime, vv.2 ++ vh.2))))

/-! Concrete scenarios used by counterexamples and witnesses. -/

/-- An HTTP oracle answering status 200 everywhere. -/
def httpAll200 : Http := fun _ => { status := 200 }

/-- A catalog oracle returning no items. -/
def catalogEmpty : SearchQuery → List Item := fun _ => []

/-- A scene with an aware (zulu) acquisition timestamp and both
polarization assets stored under the bucket-style scheme. -/
def itemW : Item :=
  { id := "S1A-scene".toList
  , datetime := some { base := 90000, tz := .zulu }
  , assets := [("vv".toList, { href := "s3://bucket/vv.tif".toList }),
               ("vh".toList, { href := "s3://bucket/vh.tif".toList })] }

/-- A catalog oracle returning exactly itemW. -/
def catalogW : SearchQuery → List Item := fun _ => [itemW]

/-- An HTTP oracle that answers 404 on itemW's normalized vv URL and 200
everywhere else. -/
def http404vv : Http := fun url =>
  if url = "https://bucket.s3.amazonaws.com/vv.tif".toList then { status := 404 }
  else { status := 200 }

/-- An HTTP oracle that answers 404 on itemW's normalized vh URL and 200
everywhere else. -/
def http404vh : Http := fun url =>
  if url = "https://bucket.s3.amazonaws.com/vh.tif".toList then { status := 404 }
  else { status := 200 }

/-- A scene whose vv asset href is bucket-style but has no path
separator after the scheme, and whose vh asset is a plain HTTPS URL. -/
def itemMalformed : Item :=
  { id := "S1A-bad".toList
  , datetime := some { base := 90000, tz := .zulu }
  , assets := [("vv".toList, { href := "s3://malformed".toList }),
               ("vh".toList, { href := "https://ok.example/vh.tif".toList })] }

/-- A catalog oracle returning exactly itemMalformed. -/
def catalogMalformed : SearchQuery → List Item := fun _ => [itemMalformed]

/-- A scene whose acquisition timestamp string carries no timezone
designator. -/
def itemNaive : Item :=
  { id := "S1A-naive".toList
  , datetime := some { base := 86400, tz := .noTz }
  , assets := [] }

/-- A catalog oracle returning exactly itemNaive. -/
def catalogNaive : SearchQuery → List Item := fun _ => [itemNaive]

/-- A scene with no acquisition timestamp and a vv asset. -/
def itemNoTime1 : Item :=
  { id := "A1".toList
  , datetime := none
  , assets := [("vv".toList, { href := "https://x.example/a_vv.tif".toList })] }

/-- A second scene with no acquisition timestamp and no assets. -/
def itemNoTime2 : Item :=
  { id := "A2".toList, datetime := none, assets := [] }

/-- A catalog oracle returning two scenes, both without timestamps. -/
def catalogNoTime : SearchQuery → List Item := fun _ => [itemNoTime1, itemNoTime2]

/-! ### Helper lemmas on character-list splitting -/

theorem takeWhile_append_sep (sep : Char) (b k : Str) (hb : sep ∉ b) :
    (b ++ sep :: k).takeWhile (fun c => decide (c ≠ sep)) = b := by
  induction b with
  | nil => simp
  | cons c b ih =>
      have hc : c ≠ sep := fun e => hb (e ▸ List.mem_cons_self c b)
      have ih' := ih (fun m => hb (List.mem_cons_of_mem c m))
      simp only [decide_not] at ih'
      simp [List.cons_append, List.takeWhile_cons, hc, ih']

theorem dropWhile_append_sep (sep : Char) (b k : Str) (hb : sep ∉ b) :
    (b ++ sep :: k).dropWhile (fun c => decide (c ≠ sep)) = sep :: k := by
  induction b with
  | nil => simp
  | cons c b ih =>
      have hc : c ≠ sep := fun e => hb (e ▸ List.mem_cons_self c b)
      have ih' := ih (fun m => hb (List.mem_cons_of_mem c m))
      simp only [decide_not] at ih'
      simp [List.cons_append, List.dropWhile_cons, hc, ih']

theorem dropWhile_eq_nil_no_sep (sep : Char) (r : Str) (h : sep ∉ r) :
    r.dropWhile (fun c => decide (c ≠ sep)) = [] := by
  induction r with
  | nil => simp
  | cons c r ih =>
      have hc : c ≠ sep := fun e => h (e ▸ List.mem_cons_self c r)
      have ih' := ih (fun m => h (List.mem_cons_of_mem c m))
      simp only [decide_not] at ih'
      simp [List.dropWhile_cons, hc, ih']

theorem split_once_append (sep : Char) (b k : Str) (hb : sep ∉ b) :
    split_once sep (b ++ sep :: k) = some (b, k) := by
  simp only [split_once, dropWhile_append_sep sep b k hb,
    takeWhile_append_sep sep b k hb]

theorem split_once_eq_none (sep : Char) (r : Str) (h : sep ∉ r) :
    split_once sep r = none := by
  simp only [split_once, dropWhile_eq_nil_no_sep sep r h]

theorem s3_scheme_length : ("s3://".toList).length = 5 := rfl

/-! ### C4 -/

/-- C4 (corrected) counterexample: on the bucket-style source location
s3://my-bucket, which has no path separator after the scheme, the
normalizer does not return any URL at all: the unpack of split raises
ValueError, so the claimed rewrite for every s3:// string fails. -/
theorem s3_to_http_no_separator_cex :
    s3_to_http ("s3://my-bucket".toList) = .error .valueError := by
  have h : ("s3://my-bucket".toList) = "s3://".toList ++ "my-bucket".toList := by decide
  have hp : (("s3://".toList).isPrefixOf ("s3://".toList ++ "my-bucket".toList)) = true := by
    simp [List.isPrefixOf_iff_prefix, List.prefix_append]
  have hd : ("s3://".toList ++ "my-bucket".toList).drop 5 = "my-bucket".toList := by
    rw [← s3_scheme_length, List.drop_left]
  rw [h, s3_to_http, if_pos hp, hd,
    split_once_eq_none '/' ("my-bucket".toList) (by decide)]

/-- C4 (amended): a source location starting with s3:// whose remainder
contains a path separator is rewritten to
https://{bucket}.s3.amazonaws.com/{key}, with bucket the segment before
the first separator after the scheme and key the entire remainder; a
string not starting with s3:// is returned unchanged; and a bucket-style
string with no separator after the scheme raises ValueError instead of
returning a URL. -/
theorem s3_to_http_spec :
    (∀ bucket key : Str, ('/' : Char) ∉ bucket →
      s3_to_http ("s3://".toList ++ (bucket ++ '/' :: key)) =
        .ok ("https://".toList ++ bucket ++ ".s3.amazonaws.com/".toList ++ key)) ∧
    (∀ href : Str, ¬ ("s3://".toList).isPrefixOf href →
      s3_to_http href = .ok href) ∧
    (∀ rest : Str, ('/' : Char) ∉ rest →
      s3_to_http ("s3://".toList ++ rest) = .error .valueError) := by
  refine ⟨fun bucket key hb => ?_, fun href h => ?_, fun rest hr => ?_⟩
  · have hp : (("s3://".toList).isPrefixOf
        ("s3://".toList ++ (bucket ++ '/' :: key))) = true := by
      simp [List.isPrefixOf_iff_prefix, List.prefix_append]
    have hd : ("s3://".toList ++ (bucket ++ '/' :: key)).drop 5
        = bucket ++ '/' :: key := by
      rw [← s3_scheme_length, List.drop_left]
    rw [s3_to_http, if_pos hp, hd, split_once_append '/' bucket key hb]
  · rw [s3_to_http, if_neg]
    exact fun hp => h hp
  · have hp : (("s3://".toList).isPrefixOf ("s3://".toList ++ rest)) = true := by
      simp [List.isPrefixOf_iff_prefix, List.prefix_append]
    have hd : ("s3://".toList ++ rest).drop 5 = rest := by
      rw [← s3_scheme_length, List.drop_left]
    rw [s3_to_http, if_pos hp, hd, split_once_eq_none '/' rest hr]

/-- C4 witness: the two spec examples and the no-separator input,
obtained from s3_to_http_spec at concrete strings. -/
theorem s3_to_http_spec_witness :
    s3_to_http ("s3://my-bucket/path/to/file.tif".toList) =
      .ok ("https://my-bucket.s3.amazonaws.com/path/to/file.tif".toList) ∧
    s3_to_http ("https://already.example/file.tif".toList) =
      .ok ("https://already.example/file.tif".toList) := by
  constructor
  · have h := s3_to_http_spec.1 ("my-bucket".toList) ("path/to/file.tif".toList)
      (by decide)
    rw [show ("s3://my-bucket/path/to/file.tif".toList)
        = "s3://".toList ++ ("my-bucket".toList ++ '/' :: ("path/to/file.tif".toList))
        from by decide,
      show ("https://my-bucket.s3.amazonaws.com/path/to/file.tif".toList)
        = "https://".toList ++ "my-bucket".toList ++ ".s3.amazonaws.com/".toList
          ++ ("path/to/file.tif".toList) from by decide]
    exact h
  · exact s3_to_http_spec.2.1 ("https://already.example/file.tif".toList) (by decide)

/-! ### C5 and C6 -/

/-- C5: the temporal search interval starts at (date - margin days) at
00:00:00Z (second-of-day 0) and ends at (date + margin days) at
23:59:59Z (second-of-day 86399). -/
theorem temporal_interval_spec (dateDay days_margin : ℤ) :
    start_date dateDay days_margin = (dateDay - days_margin, 0) ∧
    end_date dateDay days_margin = (dateDay + days_margin, 86399) := by
  constructor
  · simp only [start_date, strftime_day, sub_days, center_date, Prod.mk.injEq,
      and_true]
    rw [show (86400 * (dateDay : ℚ) - 86400 * (days_margin : ℚ)) / 86400
        = ((dateDay - days_margin : ℤ) : ℚ) from by push_cast; ring]
    exact Int.floor_intCast _
  · simp only [end_date, strftime_day, add_days, center_date, Prod.mk.injEq,
      and_true]
    rw [show (86400 * (dateDay : ℚ) + 86400 * (days_margin : ℚ)) / 86400
        = ((dateDay + days_margin : ℤ) : ℚ) from by push_cast; ring]
    exact Int.floor_intCast _

/-- C6: the spatial bounding box is exactly
[lon - 0.2, lat - 0.2, lon + 0.2, lat + 0.2] for every lon and lat. -/
theorem spatial_bbox_spec (lon lat : ℚ) :
    bbox lon lat = [lon - 0.2, lat - 0.2, lon + 0.2, lat + 0.2] := rfl

/-! ### C7 -/

/-- C7: an empty catalog result makes retrieve return the no-scenes
message carrying the margin, date and coordinates, with no file written
(and no download attempted: the result does not depend on the HTTP
oracle). -/
theorem empty_catalog_no_scenes (http : Http) (catalog : SearchQuery → List Item)
    (lon lat : ℚ) (dateDay : ℤ) (save_dir : Str) (days_margin : ℤ)
    (h : catalog (search_query lon lat dateDay days_margin) = []) :
    download_sentinel1_grd http catalog lon lat dateDay save_dir days_margin =
      .ok (.noScenes days_margin dateDay lon lat, []) := by
  simp only [download_sentinel1_grd, h, if_pos]

/-- C7 witness: a catalog returning no items at the coordinates and date
of the spec scenario. -/
theorem empty_catalog_no_scenes_witness :
    download_sentinel1_grd httpAll200 catalogEmpty 129.075 35.1796 19509
      ("downloads".toList) 10 =
      .ok (.noScenes 10 19509 129.075 35.1796, []) :=
  empty_catalog_no_scenes httpAll200 catalogEmpty 129.075 35.1796 19509
    ("downloads".toList) 10 rfl

/-! ### Head of a stable merge sort

For a transitive total Boolean comparison, the head of List.mergeSort is
the element at the first position achieving the minimal comparison
class: it is below every element of the list, and everything strictly
before it in the input is strictly above it. -/

theorem head_mergeSort_first_min {α : Type} (le : α → α → Bool)
    (htrans : ∀ a b c, le a b → le b c → le a c)
    (htotal : ∀ a b, le a b || le b a) :
    ∀ l : List α, l ≠ [] →
      ∃ i : Fin l.length, (l.mergeSort le).head? = some (l.get i) ∧
        (∀ x ∈ l, le (l.get i) x = true) ∧
        ∀ j : Fin l.length, (j : ℕ) < (i : ℕ) → le (l.get j) (l.get i) = false := by
  intro l
  induction l with
  | nil => intro h; exact absurd rfl h
  | cons a t ih =>
    intro _
    cases t with
    | nil =>
      refine ⟨⟨0, by simp⟩, by simp, ?_, ?_⟩
      · intro x hx
        have hxa : x = a := by simpa using hx
        subst hxa
        simpa using htotal x x
      · intro j hj
        exact absurd hj (Nat.not_lt_zero _)
    | cons b t2 =>
      obtain ⟨i0, hhead, hmin, hfirst⟩ := ih (by simp)
      obtain ⟨l1, l2, hms, hmt, hl1⟩ := List.mergeSort_cons htrans htotal a (b :: t2)
      cases l1 with
      | nil =>
        simp only [List.nil_append] at hms hmt
        refine ⟨⟨0, by simp⟩, by simp [hms], ?_, ?_⟩
        · intro x hx
          rcases List.mem_cons.mp hx with rfl | hx2
          · simpa using htotal x x
          · have hs := List.sorted_mergeSort htrans htotal (a :: b :: t2)
            rw [hms] at hs
            have hx3 : x ∈ l2 := by rw [← hmt]; exact List.mem_mergeSort.mpr hx2
            exact (List.pairwise_cons.mp hs).1 x hx3
        · intro j hj
          exact absurd hj (Nat.not_lt_zero _)
      | cons c l1' =>
        have hhc : (List.mergeSort (b :: t2) le).head? = some c := by
          rw [hmt]; rfl
        have hc : c = (b :: t2).get i0 := Option.some_inj.mp (hhc.symm.trans hhead)
        have hilt : (i0 : ℕ) + 1 < (a :: b :: t2).length :=
          Nat.succ_lt_succ i0.isLt
        have hget : (a :: b :: t2).get ⟨(i0 : ℕ) + 1, hilt⟩ = (b :: t2).get i0 := by
          rw [List.get_cons_succ]
        have hlac : le a c = false := by simpa using hl1 c (List.mem_cons_self c l1')
        refine ⟨⟨(i0 : ℕ) + 1, hilt⟩, ?_, ?_, ?_⟩
        · rw [hms, hget, ← hc]; rfl
        · intro x hx
          rw [hget]
          rcases List.mem_cons.mp hx with rfl | hx2
          · have := htotal x c
            rw [hlac] at this
            simp only [Bool.false_or] at this
            rw [← hc]
            exact this
          · exact hmin x hx2
        · intro j hj
          rcases j with ⟨jv, hjl⟩
          cases jv with
          | zero =>
              rw [hget]
              show le a ((b :: t2).get i0) = false
              rw [← hc]
              exact hlac
          | succ jv =>
              have hjv : jv < (i0 : ℕ) := Nat.lt_of_succ_lt_succ hj
              have hjl2 : jv < (b :: t2).length := Nat.lt_trans hjv i0.isLt
              have hgj : (a :: b :: t2).get ⟨jv + 1, hjl⟩ = (b :: t2).get ⟨jv, hjl2⟩ := by
                rw [List.get_cons_succ]
              rw [hget, hgj]
              exact hfirst ⟨jv, hjl2⟩ hjv

/-! ### Properties of the key computation -/

theorem diffLE_trans : ∀ a b c, diffLE a b → diffLE b c → diffLE a c := by
  intro a b c hab hbc
  simp only [diffLE, decide_eq_true_eq] at hab hbc ⊢
  exact le_trans hab hbc

theorem diffLE_total : ∀ a b, diffLE a b || diffLE b a := by
  intro a b
  simp only [diffLE, Bool.or_eq_true, decide_eq_true_eq]
  exact le_total a.1 b.1

theorem compute_keys_eq_map (center : PyDatetime) (items : List Item)
    (hok : ∀ it ∈ items, ∃ k, get_time_diff center it = .ok k) :
    compute_keys center items =
      .ok (items.map (fun it => (time_diff_val center it, it))) := by
  induction items with
  | nil => rfl
  | cons it rest ih =>
      obtain ⟨k, hk⟩ := hok it (List.mem_cons_self it rest)
      have hv : time_diff_val center it = k := by
        simp [time_diff_val, hk]
      have ih2 := ih (fun x hx => hok x (List.mem_cons_of_mem it hx))
      simp [compute_keys, hk, ih2, hv, Except.bind, Except.map]

theorem select_nearest_nil (center : PyDatetime) :
    select_nearest center [] = .ok none := by
  simp [select_nearest, sort_items, compute_keys, Except.map]

/-- Characterization of the scene selection step: on a non-empty list
whose keys all compute, it returns the element at the first position
achieving the minimal time difference. -/
theorem select_nearest_spec (center : PyDatetime) (items : List Item)
    (hne : items ≠ [])
    (hok : ∀ it ∈ items, ∃ k, get_time_diff center it = .ok k) :
    ∃ i : Fin items.length,
      select_nearest center items = .ok (some (items.get i)) ∧
      (∀ x ∈ items, time_diff_val center (items.get i) ≤ time_diff_val center x) ∧
      ∀ j : Fin items.length, (j : ℕ) < (i : ℕ) →
        time_diff_val center (items.get i) < time_diff_val center (items.get j) := by
  have hck := compute_keys_eq_map center items hok
  set keyed := items.map (fun it => (time_diff_val center it, it)) with hkeyed
  have hlen : keyed.length = items.length := by simp [hkeyed]
  have hgk : ∀ (n : ℕ) (h1 : n < keyed.length) (h2 : n < items.length),
      keyed.get ⟨n, h1⟩ =
        (time_diff_val center (items.get ⟨n, h2⟩), items.get ⟨n, h2⟩) := by
    intro n h1 h2
    simp [hkeyed]
  have hkne : keyed ≠ [] := by
    simp only [hkeyed, ne_eq, List.map_eq_nil_iff]
    exact hne
  obtain ⟨i, hh, hm, hf⟩ :=
    head_mergeSort_first_min diffLE diffLE_trans diffLE_total keyed hkne
  have hi2 : (i : ℕ) < items.length := hlen ▸ i.isLt
  have hgi : keyed.get i =
      (time_diff_val center (items.get ⟨(i : ℕ), hi2⟩), items.get ⟨(i : ℕ), hi2⟩) := by
    have := hgk (i : ℕ) i.isLt hi2
    simpa using this
  refine ⟨⟨(i : ℕ), hi2⟩, ?_, ?_, ?_⟩
  · simp only [select_nearest, sort_items, hck, Except.map]
    rw [List.head?_map, hh, hgi]
    rfl
  · intro x hx
    have hxk : (time_diff_val center x, x) ∈ keyed :=
      List.mem_map_of_mem (fun it => (time_diff_val center it, it)) hx
    have := hm _ hxk
    rw [hgi] at this
    simpa [diffLE] using this
  · intro j hj
    have hj1 : (j : ℕ) < keyed.length := by rw [hlen]; exact j.isLt
    have := hf ⟨(j : ℕ), hj1⟩ hj
    rw [hgi, hgk (j : ℕ) hj1 j.isLt] at this
    simp only [diffLE, decide_eq_false_iff_not, not_le] at this
    simpa using this

/-! ### Error classification of the key computation -/

theorem get_time_diff_none (center : PyDatetime) (it : Item) (h : it.datetime = none) :
    get_time_diff center it = .ok ⊤ := by
  simp [get_time_diff, h]

theorem time_diff_val_none (center : PyDatetime) (it : Item) (h : it.datetime = none) :
    time_diff_val center it = ⊤ := by
  simp [time_diff_val, get_time_diff, h]

theorem get_time_diff_naive (center : PyDatetime) (oc : ℚ) (it : Item) (s : Iso8601)
    (hc : center.tzOffset = some oc) (hts : it.datetime = some s) (hn : s.tz = .noTz) :
    get_time_diff center it = .error .typeError := by
  rcases s with ⟨sb, st⟩
  simp only [Iso8601.tz] at hn
  subst hn
  simp [get_time_diff, hts, pyReplaceZ, fromisoformat, py_sub, hc, Except.map]

theorem get_time_diff_error_eq (center : PyDatetime) (oc : ℚ) (it : Item) (e : PyErr)
    (hc : center.tzOffset = some oc) (h : get_time_diff center it = .error e) :
    e = .typeError := by
  rcases hd : it.datetime with _ | s
  · rw [get_time_diff_none center it hd] at h
    cases h
  · rcases s with ⟨sb, st⟩
    cases st with
    | noTz =>
        rw [get_time_diff_naive center oc it ⟨sb, .noTz⟩ hc hd rfl] at h
        exact (Except.error.inj h).symm
    | zulu =>
        rw [get_time_diff] at h
        simp [hd, pyReplaceZ, fromisoformat, py_sub, hc, Except.map] at h
    | offset q =>
        rw [get_time_diff] at h
        simp [hd, pyReplaceZ, fromisoformat, py_sub, hc, Except.map] at h

theorem compute_keys_typeError (center : PyDatetime) (oc : ℚ)
    (hc : center.tzOffset = some oc) (items : List Item) (it : Item)
    (hmem : it ∈ items) (herr : get_time_diff center it = .error .typeError) :
    compute_keys center items = .error .typeError := by
  induction items with
  | nil => cases hmem
  | cons y rest ih =>
      rcases List.mem_cons.mp hmem with rfl | hmem2
      · simp [compute_keys, herr, Except.bind]
      · cases hy : get_time_diff center y with
        | error e =>
            have he : e = .typeError := get_time_diff_error_eq center oc y e hc hy
            subst he
            simp [compute_keys, hy, Except.bind]
        | ok k =>
            simp [compute_keys, hy, Except.bind, Except.map, ih hmem2]

theorem select_nearest_error (center : PyDatetime) (items : List Item) (e : PyErr)
    (h : compute_keys center items = .error e) :
    select_nearest center items = .error e := by
  simp [select_nearest, sort_items, h, Except.map]

/-! ### Unfolding the orchestrator past scene selection -/

theorem download_eq_of_select (http : Http) (catalog : SearchQuery → List Item)
    (lon lat : ℚ) (dateDay : ℤ) (save_dir : Str) (days_margin : ℤ) (item : Item)
    (hne : catalog (search_query lon lat dateDay days_margin) ≠ [])
    (hsel : select_nearest (center_date dateDay)
        (catalog (search_query lon lat dateDay days_margin)) = .ok (some item)) :
    download_sentinel1_grd http catalog lon lat dateDay save_dir days_margin =
      (process_channel http save_dir item.id ("vv".toList)
          (dict_get item.assets ("vv".toList))).bind (fun vv =>
        (process_channel http save_dir item.id ("vh".toList)
            (dict_get item.assets ("vh".toList))).map (fun vh =>
          (.done vv.1 vh.1 item.datetime, vv.2 ++ vh.2))) := by
  simp only [download_sentinel1_grd, if_neg hne, hsel, Except.bind]

theorem download_error_of_select (http : Http) (catalog : SearchQuery → List Item)
    (lon lat : ℚ) (dateDay : ℤ) (save_dir : Str) (days_margin : ℤ) (e : PyErr)
    (hne : catalog (search_query lon lat dateDay days_margin) ≠ [])
    (hsel : select_nearest (center_date dateDay)
        (catalog (search_query lon lat dateDay days_margin)) = .error e) :
    download_sentinel1_grd http catalog lon lat dateDay save_dir days_margin =
      .error e := by
  simp only [download_sentinel1_grd, if_neg hne, hsel, Except.bind]

/-- Selection on a singleton list whose key computes. -/
theorem select_nearest_singleton (center : PyDatetime) (it : Item)
    (hk : ∃ k, get_time_diff center it = .ok k) :
    select_nearest center [it] = .ok (some it) := by
  obtain ⟨k, hk⟩ := hk
  simp [select_nearest, sort_items, compute_keys, hk, Except.bind, Except.map,
    List.mergeSort_singleton]

/-! ### C1 -/

/-- C1: for every non-empty list of scene records whose time differences
all compute, the selection step returns the record at the first index
minimizing the absolute time difference in seconds to the target
instant: its difference is less than or equal to every record's
difference, and every record at a strictly smaller index has a strictly
larger difference (stable tie-break in original catalog response order,
no additional key). -/
theorem select_nearest_min_stable (center : PyDatetime) (items : List Item)
    (hne : items ≠ [])
    (hok : ∀ it ∈ items, ∃ k, get_time_diff center it = .ok k) :
    ∃ i : Fin items.length,
      select_nearest center items = .ok (some (items.get i)) ∧
      (∀ x ∈ items, time_diff_val center (items.get i) ≤ time_diff_val center x) ∧
      ∀ j : Fin items.length, (j : ℕ) < (i : ℕ) →
        time_diff_val center (items.get i) < time_diff_val center (items.get j) :=
  select_nearest_spec center items hne hok

/-- C1 witness: a two-scene catalog (first without a timestamp, second
with one) at target day 1. -/
theorem select_nearest_min_stable_witness :
    ∃ i : Fin ([itemNoTime2, itemW]).length,
      select_nearest (center_date 1) [itemNoTime2, itemW] =
        .ok (some (([itemNoTime2, itemW]).get i)) ∧
      (∀ x ∈ [itemNoTime2, itemW],
        time_diff_val (center_date 1) (([itemNoTime2, itemW]).get i) ≤
          time_diff_val (center_date 1) x) ∧
      ∀ j : Fin ([itemNoTime2, itemW]).length, (j : ℕ) < (i : ℕ) →
        time_diff_val (center_date 1) (([itemNoTime2, itemW]).get i) <
          time_diff_val (center_date 1) (([itemNoTime2, itemW]).get j) :=
  select_nearest_min_stable (center_date 1) [itemNoTime2, itemW] (by simp)
    (by
      intro it hit
      rcases List.mem_cons.mp hit with rfl | hit2
      · exact ⟨⊤, rfl⟩
      · rcases List.mem_singleton.mp hit2 with rfl
        exact ⟨_, rfl⟩)

/-! ### C8 -/

/-- C8: records with a missing acquisition instant get the infinite
sentinel difference, and whenever some record of the list has a finite
(computable) difference, no missing-instant record is ever selected. -/
theorem missing_instant_never_selected (center : PyDatetime) (items : List Item)
    (hok : ∀ it ∈ items, ∃ k, get_time_diff center it = .ok k)
    (x : Item) (hx : x ∈ items) (hxfin : time_diff_val center x ≠ ⊤) :
    (∀ y ∈ items, y.datetime = none → time_diff_val center y = ⊤) ∧
    ∃ r, select_nearest center items = .ok (some r) ∧ r.datetime ≠ none := by
  refine ⟨fun y _ hy => time_diff_val_none center y hy, ?_⟩
  obtain ⟨i, hsel, hmin, _⟩ :=
    select_nearest_spec center items (List.ne_nil_of_mem hx) hok
  refine ⟨items.get i, hsel, fun hnone => ?_⟩
  have h1 : time_diff_val center (items.get i) = ⊤ :=
    time_diff_val_none center _ hnone
  have h2 := hmin x hx
  rw [h1] at h2
  exact hxfin (top_le_iff.mp h2)

/-- C8 witness: with a missing-instant scene listed before a timed
scene, the selected scene carries an instant. -/
theorem missing_instant_never_selected_witness :
    (∀ y ∈ [itemNoTime2, itemW], y.datetime = none →
      time_diff_val (center_date 1) y = ⊤) ∧
    ∃ r, select_nearest (center_date 1) [itemNoTime2, itemW] = .ok (some r) ∧
      r.datetime ≠ none :=
  missing_instant_never_selected (center_date 1) [itemNoTime2, itemW]
    (by
      intro it hit
      rcases List.mem_cons.mp hit with rfl | hit2
      · exact ⟨⊤, rfl⟩
      · rcases List.mem_singleton.mp hit2 with rfl
        exact ⟨_, rfl⟩)
    itemW (by simp)
    (by simp [time_diff_val, itemW, get_time_diff, pyReplaceZ, fromisoformat,
      py_sub, center_date, Except.map])

/-! ### C9 -/

/-- C9: a catalog record whose acquisition timestamp string has no
timezone designator makes the key computation subtract a naive datetime
from the aware center date, raising TypeError and aborting the entire
invocation; UTC is not silently assumed. -/
theorem naive_timestamp_aborts (http : Http) (catalog : SearchQuery → List Item)
    (lon lat : ℚ) (dateDay : ℤ) (save_dir : Str) (days_margin : ℤ)
    (it : Item) (s : Iso8601)
    (hmem : it ∈ catalog (search_query lon lat dateDay days_margin))
    (hts : it.datetime = some s) (hn : s.tz = .noTz) :
    download_sentinel1_grd http catalog lon lat dateDay save_dir days_margin =
      .error .typeError := by
  have hgtd := get_time_diff_naive (center_date dateDay) 0 it s rfl hts hn
  have hck := compute_keys_typeError (center_date dateDay) 0 rfl _ it hmem hgtd
  exact download_error_of_select http catalog lon lat dateDay save_dir days_margin
    .typeError (List.ne_nil_of_mem hmem) (select_nearest_error _ _ _ hck)

/-- C9 witness: one scene with a designator-free timestamp. -/
theorem naive_timestamp_aborts_witness :
    download_sentinel1_grd httpAll200 catalogNaive 129.075 35.1796 19509
      ("downloads".toList) 10 = .error .typeError :=
  naive_timestamp_aborts httpAll200 catalogNaive 129.075 35.1796 19509
    ("downloads".toList) 10 itemNaive { base := 86400, tz := .noTz }
    (by simp [catalogNaive]) rfl rfl

/-! ### C10 -/

/-- C10: when every returned record lacks an acquisition instant, the
selector still picks the first record in catalog response order (all
keys are the infinite sentinel and the stable sort preserves order), and
retrieve proceeds to the per-channel download phase with an absent
reported acquisition time. -/
theorem all_missing_selects_first (http : Http) (catalog : SearchQuery → List Item)
    (lon lat : ℚ) (dateDay : ℤ) (save_dir : Str) (days_margin : ℤ)
    (it : Item) (rest : List Item)
    (hcat : catalog (search_query lon lat dateDay days_margin) = it :: rest)
    (hnone : ∀ x ∈ it :: rest, x.datetime = none) :
    download_sentinel1_grd http catalog lon lat dateDay save_dir days_margin =
      (process_channel http save_dir it.id ("vv".toList)
          (dict_get it.assets ("vv".toList))).bind (fun vv =>
        (process_channel http save_dir it.id ("vh".toList)
            (dict_get it.assets ("vh".toList))).map (fun vh =>
          (.done vv.1 vh.1 none, vv.2 ++ vh.2))) := by
  have hok : ∀ x ∈ it :: rest, ∃ k, get_time_diff (center_date dateDay) x = .ok k :=
    fun x hx => ⟨⊤, get_time_diff_none _ x (hnone x hx)⟩
  obtain ⟨i, hsel, _, hfirst⟩ :=
    select_nearest_spec (center_date dateDay) (it :: rest) (by simp) hok
  have hi0 : (i : ℕ) = 0 := by
    by_contra h0
    have hlt : (0 : ℕ) < (i : ℕ) := Nat.pos_of_ne_zero h0
    have hcmp := hfirst ⟨0, by simp⟩ hlt
    have hgi : time_diff_val (center_date dateDay) ((it :: rest).get i) = ⊤ :=
      time_diff_val_none _ _ (hnone _ (List.get_mem (it :: rest) i.1 i.2))
    have hg0 : time_diff_val (center_date dateDay) ((it :: rest).get ⟨0, by simp⟩) = ⊤ :=
      time_diff_val_none _ _ (hnone _ (List.get_mem (it :: rest) 0 (by simp)))
    rw [hgi, hg0] at hcmp
    exact lt_irrefl ⊤ hcmp
  have hieq : i = ⟨0, by simp⟩ := Fin.ext hi0
  have hgeti : (it :: rest).get i = it := by rw [hieq]; rfl
  rw [hgeti] at hsel
  have hsel2 : select_nearest (center_date dateDay)
      (catalog (search_query lon lat dateDay days_margin)) = .ok (some it) := by
    rw [hcat]; exact hsel
  have hne : catalog (search_query lon lat dateDay days_margin) ≠ [] := by
    rw [hcat]; simp
  rw [download_eq_of_select http catalog lon lat dateDay save_dir days_margin it
    hne hsel2]
  simp only [hnone it (List.mem_cons_self it rest)]

/-- C10 witness: a two-scene catalog where both scenes lack timestamps;
retrieve processes the channels of the first scene with an absent
reported time. -/
theorem all_missing_selects_first_witness :
    download_sentinel1_grd httpAll200 catalogNoTime 129.075 35.1796 19509
      ("downloads".toList) 10 =
      (process_channel httpAll200 ("downloads".toList) itemNoTime1.id ("vv".toList)
          (dict_get itemNoTime1.assets ("vv".toList))).bind (fun vv =>
        (process_channel httpAll200 ("downloads".toList) itemNoTime1.id ("vh".toList)
            (dict_get itemNoTime1.assets ("vh".toList))).map (fun vh =>
          (.done vv.1 vh.1 none, vv.2 ++ vh.2))) :=
  all_missing_selects_first httpAll200 catalogNoTime 129.075 35.1796 19509
    ("downloads".toList) 10 itemNoTime1 [itemNoTime2] rfl (by decide)

/-! ### C2 -/

/-- The two bucket-style hrefs of itemW normalize to the expected
object-storage HTTPS URLs. -/
theorem s3_itemW_hrefs :
    s3_to_http ("s3://bucket/vv.tif".toList) =
      .ok ("https://bucket.s3.amazonaws.com/vv.tif".toList) ∧
    s3_to_http ("s3://bucket/vh.tif".toList) =
      .ok ("https://bucket.s3.amazonaws.com/vh.tif".toList) := by
  constructor
  · rw [show ("s3://bucket/vv.tif".toList)
        = "s3://".toList ++ ("bucket".toList ++ '/' :: ("vv.tif".toList))
        from by decide]
    have hp : (("s3://".toList).isPrefixOf
        ("s3://".toList ++ ("bucket".toList ++ '/' :: ("vv.tif".toList)))) = true := by
      simp [List.isPrefixOf_iff_prefix, List.prefix_append]
    have hd : ("s3://".toList ++ ("bucket".toList ++ '/' :: ("vv.tif".toList))).drop 5
        = "bucket".toList ++ '/' :: ("vv.tif".toList) := by
      rw [← s3_scheme_length, List.drop_left]
    rw [s3_to_http, if_pos hp, hd,
      split_once_append '/' ("bucket".toList) ("vv.tif".toList) (by decide)]
    decide
  · rw [show ("s3://bucket/vh.tif".toList)
        = "s3://".toList ++ ("bucket".toList ++ '/' :: ("vh.tif".toList))
        from by decide]
    have hp : (("s3://".toList).isPrefixOf
        ("s3://".toList ++ ("bucket".toList ++ '/' :: ("vh.tif".toList)))) = true := by
      simp [List.isPrefixOf_iff_prefix, List.prefix_append]
    have hd : ("s3://".toList ++ ("bucket".toList ++ '/' :: ("vh.tif".toList))).drop 5
        = "bucket".toList ++ '/' :: ("vh.tif".toList) := by
      rw [← s3_scheme_length, List.drop_left]
    rw [s3_to_http, if_pos hp, hd,
      split_once_append '/' ("bucket".toList) ("vh.tif".toList) (by decide)]
    decide

/-- C2: for each polarization channel in {vv, vh}, a non-200 response
for that channel's fetch yields the failed outcome carrying the numeric
status code in that channel's slot only, no file is written for that
channel, and the sibling channel is still attempted with its outcome
unaffected: when vv fails the overall result is a function of the vh
channel's own processing alone, and when vh fails it is a function of
the vv channel's own processing alone.  Both channels occupy exactly one
outcome slot of the final done result by construction. -/
theorem failed_download_isolated (http : Http) (catalog : SearchQuery → List Item)
    (lon lat : ℚ) (dateDay : ℤ) (save_dir : Str) (days_margin : ℤ) (item : Item)
    (hsel : select_nearest (center_date dateDay)
        (catalog (search_query lon lat dateDay days_margin)) = .ok (some item)) :
    (∀ (a : Asset) (url : Str), dict_get item.assets ("vv".toList) = some a →
      s3_to_http a.href = .ok url → (http url).status ≠ 200 →
      download_sentinel1_grd http catalog lon lat dateDay save_dir days_margin =
        (process_channel http save_dir item.id ("vh".toList)
            (dict_get item.assets ("vh".toList))).map (fun vh =>
          (.done (.failed (http url).status) vh.1 item.datetime, vh.2))) ∧
    (∀ (b : Asset) (url : Str), dict_get item.assets ("vh".toList) = some b →
      s3_to_http b.href = .ok url → (http url).status ≠ 200 →
      download_sentinel1_grd http catalog lon lat dateDay save_dir days_margin =
        (process_channel http save_dir item.id ("vv".toList)
            (dict_get item.assets ("vv".toList))).map (fun vv =>
          (.done vv.1 (.failed (http url).status) item.datetime, vv.2))) := by
  have hne : catalog (search_query lon lat dateDay days_margin) ≠ [] := by
    intro h
    rw [h, select_nearest_nil] at hsel
    simp at hsel
  have hd := download_eq_of_select http catalog lon lat dateDay save_dir days_margin
    item hne hsel
  constructor
  · intro a url hvv hurl hstatus
    have hpc : process_channel http save_dir item.id ("vv".toList)
        (dict_get item.assets ("vv".toList)) = .ok (.failed (http url).status, []) := by
      rw [hvv]
      simp [process_channel, hurl, hstatus, Except.map]
    rw [hd, hpc]
    cases hvh : process_channel http save_dir item.id ("vh".toList)
        (dict_get item.assets ("vh".toList)) with
    | error e => simp [Except.bind, Except.map]
    | ok p => simp [Except.bind, Except.map]
  · intro b url hvh hurl hstatus
    have hpc : process_channel http save_dir item.id ("vh".toList)
        (dict_get item.assets ("vh".toList)) = .ok (.failed (http url).status, []) := by
      rw [hvh]
      simp [process_channel, hurl, hstatus, Except.map]
    rw [hd]
    simp only [hpc]
    cases hvv2 : process_channel http save_dir item.id ("vv".toList)
        (dict_get item.assets ("vv".toList)) with
    | error e => simp [Except.bind, Except.map]
    | ok p => simp [Except.bind, Except.map]

/-- C2 witness: a one-scene catalog, once against an HTTP oracle whose
normalized vv URL answers 404 (vh answers 200), and once against an
oracle whose normalized vh URL answers 404 (vv answers 200). -/
theorem failed_download_isolated_witness :
    (download_sentinel1_grd http404vv catalogW 129.075 35.1796 19509
      ("downloads".toList) 10 =
      (process_channel http404vv ("downloads".toList) itemW.id ("vh".toList)
          (dict_get itemW.assets ("vh".toList))).map (fun vh =>
        (.done (.failed (http404vv
            ("https://bucket.s3.amazonaws.com/vv.tif".toList)).status)
          vh.1 itemW.datetime, vh.2))) ∧
    (download_sentinel1_grd http404vh catalogW 129.075 35.1796 19509
      ("downloads".toList) 10 =
      (process_channel http404vh ("downloads".toList) itemW.id ("vv".toList)
          (dict_get itemW.assets ("vv".toList))).map (fun vv =>
        (.done vv.1 (.failed (http404vh
            ("https://bucket.s3.amazonaws.com/vh.tif".toList)).status)
          itemW.datetime, vv.2))) :=
  ⟨(failed_download_isolated http404vv catalogW 129.075 35.1796 19509
      ("downloads".toList) 10 itemW
      (select_nearest_singleton _ _ ⟨_, rfl⟩)).1
    { href := "s3://bucket/vv.tif".toList }
    ("https://bucket.s3.amazonaws.com/vv.tif".toList)
    rfl s3_itemW_hrefs.1 (by decide),
   (failed_download_isolated http404vh catalogW 129.075 35.1796 19509
      ("downloads".toList) 10 itemW
      (select_nearest_singleton _ _ ⟨_, rfl⟩)).2
    { href := "s3://bucket/vh.tif".toList }
    ("https://bucket.s3.amazonaws.com/vh.tif".toList)
    rfl s3_itemW_hrefs.2 (by decide)⟩

/-! ### C3 -/

theorem except_bind_ok {ε α β : Type} (x : α) (f : α → Except ε β) :
    Except.bind (Except.ok x) f = f x := rfl

/-- A bucket-style href with no separator is not normalizable. -/
theorem s3_malformed_href :
    s3_to_http ("s3://malformed".toList) = .error .valueError := by
  have h : ("s3://malformed".toList) = "s3://".toList ++ "malformed".toList := by decide
  have hp : (("s3://".toList).isPrefixOf
      ("s3://".toList ++ "malformed".toList)) = true := by
    simp [List.isPrefixOf_iff_prefix, List.prefix_append]
  have hd : ("s3://".toList ++ "malformed".toList).drop 5 = "malformed".toList := by
    rw [← s3_scheme_length, List.drop_left]
  rw [h, s3_to_http, if_pos hp, hd,
    split_once_eq_none '/' ("malformed".toList) (by decide)]

/-- C3 (corrected) counterexample: a selected scene whose vv asset
reference is bucket-style with no path separator makes retrieve raise
ValueError and abort the entire invocation: no per-channel outcome is
recorded and the sibling vh channel (here a perfectly fetchable HTTPS
asset) is never attempted, contrary to the claim. -/
theorem malformed_vv_aborts_cex :
    download_sentinel1_grd httpAll200 catalogMalformed 0 0 19509
      ("out".toList) 10 = .error .valueError := by
  have hsel : select_nearest (center_date 19509)
      (catalogMalformed (search_query 0 0 19509 10)) = .ok (some itemMalformed) :=
    select_nearest_singleton _ _ ⟨_, rfl⟩
  have hne : catalogMalformed (search_query 0 0 19509 10) ≠ [] := by
    simp [catalogMalformed]
  rw [download_eq_of_select httpAll200 catalogMalformed 0 0 19509 ("out".toList) 10
    itemMalformed hne hsel]
  have hvv : dict_get itemMalformed.assets ("vv".toList)
      = some { href := "s3://malformed".toList } := rfl
  have hpc : process_channel httpAll200 ("out".toList) itemMalformed.id ("vv".toList)
      (dict_get itemMalformed.assets ("vv".toList)) = .error .valueError := by
    rw [hvv]
    simp only [process_channel]
    rw [s3_malformed_href]
    rfl
  rw [hpc]
  rfl

/-- C3 (amended): a source location that cannot be normalized into a
fetchable URL (bucket-style reference with no separator) raises
ValueError, which aborts the entire invocation instead of being recorded
in that channel's outcome slot: if the vv reference is malformed the vh
channel is never attempted, and if the vv reference normalizes but the
vh reference is malformed the invocation likewise aborts. -/
theorem malformed_asset_reference_aborts (http : Http)
    (catalog : SearchQuery → List Item) (lon lat : ℚ) (dateDay : ℤ)
    (save_dir : Str) (days_margin : ℤ) (item : Item)
    (hsel : select_nearest (center_date dateDay)
        (catalog (search_query lon lat dateDay days_margin)) = .ok (some item)) :
    (∀ a : Asset, dict_get item.assets ("vv".toList) = some a →
      s3_to_http a.href = .error .valueError →
      download_sentinel1_grd http catalog lon lat dateDay save_dir days_margin =
        .error .valueError) ∧
    (∀ a b : Asset, ∀ url : Str,
      dict_get item.assets ("vv".toList) = some a → s3_to_http a.href = .ok url →
      dict_get item.assets ("vh".toList) = some b →
      s3_to_http b.href = .error .valueError →
      download_sentinel1_grd http catalog lon lat dateDay save_dir days_margin =
        .error .valueError) := by
  have hne : catalog (search_query lon lat dateDay days_margin) ≠ [] := by
    intro h
    rw [h, select_nearest_nil] at hsel
    simp at hsel
  have hd := download_eq_of_select http catalog lon lat dateDay save_dir days_margin
    item hne hsel
  constructor
  · intro a hvv hbad
    rw [hd]
    have hpc : process_channel http save_dir item.id ("vv".toList)
        (dict_get item.assets ("vv".toList)) = .error .valueError := by
      rw [hvv]
      simp [process_channel, hbad, Except.map]
    rw [hpc]
    rfl
  · intro a b url hvv hurl hvh hbad
    rw [hd]
    have h1 : ∃ p, process_channel http save_dir item.id ("vv".toList)
        (dict_get item.assets ("vv".toList)) = .ok p := by
      rw [hvv]
      simp [process_channel, hurl, Except.map]
    obtain ⟨p, hp⟩ := h1
    have h2 : process_channel http save_dir item.id ("vh".toList)
        (dict_get item.assets ("vh".toList)) = .error .valueError := by
      rw [hvh]
      simp [process_channel, hbad, Except.map]
    rw [hp, except_bind_ok, h2]
    rfl

/-- C3 (amended) witness: the malformed-vv scenario, where the aborting
error is exactly the normalization ValueError. -/
theorem malformed_asset_reference_aborts_witness :
    download_sentinel1_grd httpAll200 catalogMalformed 129.075 35.1796 19509
      ("downloads".toList) 10 = .error .valueError :=
  (malformed_asset_reference_aborts httpAll200 catalogMalformed 129.075 35.1796
      19509 ("downloads".toList) 10 itemMalformed
      (select_nearest_singleton _ _ ⟨_, rfl⟩)).1
    { href := "s3://malformed".toList } rfl s3_malformed_href

end Sentinel1
